import Mathlib

/-!
Verification of the Transaction Analytics and Forecasting Engine of the
Finance-Tracker repository.

The Python source is shallowly embedded over exact rationals:

* `finance_core.py` — `Transaction` / `Income` / `Expense` become a record
  with a kind tag; dates are embedded post-parsing as calendar triples
  (the source stores ISO `YYYY-MM-DD` strings and parses them with
  `datetime.fromisoformat`; lexicographic order on well-formed ISO strings
  is the lexicographic order on the triples).
* `finance_analytics.py` — `FinanceAnalyzer.calculate_statistics`,
  `numpy_operations`, `predict_spending`, `monthly_trend`,
  `category_percentages`.
* `finance_app.py` — the trend classification of `generate_prediction`.
* `Analytics/analytics.py` — the top-N category truncation of
  `_plot_category_trends`.
* `dashboard/app.py` — the clamped `run_prediction`.

Python `round(x, n)` is round-half-to-even; it is embedded exactly over a
`LinearOrderedField` with a floor.  The `statistics.stdev` square root is
the one place the source computes an irrational value, embedded with
`Real.sqrt`.
-/

/- The Batteries rational arithmetic is sealed `@[irreducible]`; concrete
evaluation inside `decide` needs it reducible again. -/
attribute [local semireducible] Rat.add Rat.mul Rat.sub Rat.inv

namespace FinanceTracker

/-! ## Rounding (Python `round`, half-to-even) -/

/-- Round to the nearest integer, ties to the even integer
(the semantics of Python built-in `round`). -/
def rndHalfEven {α : Type} [LinearOrderedField α] [FloorRing α] (x : α) : ℤ :=
  if x - ((⌊x⌋ : ℤ) : α) < 1/2 then ⌊x⌋
  else if (1:α)/2 < x - ((⌊x⌋ : ℤ) : α) then ⌊x⌋ + 1
  else if ⌊x⌋ % 2 = 0 then ⌊x⌋ else ⌊x⌋ + 1

/-- Python `round(x, 2)`. -/
def round2 {α : Type} [LinearOrderedField α] [FloorRing α] (x : α) : α :=
  (rndHalfEven (100 * x) : α) / 100

/-- Python `round(x, 3)`. -/
def round3 {α : Type} [LinearOrderedField α] [FloorRing α] (x : α) : α :=
  (rndHalfEven (1000 * x) : α) / 1000

/-! ## Data model (`finance_core.py`)

`Transaction` is the parent class; `Income` and `Expense` are the two
subclasses, and every analytics call site distinguishes them with
`isinstance(t, Income)` / `isinstance(t, Expense)`, so the embedding keeps
a two-valued kind tag. -/

inductive TKind : Type
  | income : TKind
  | expense : TKind
deriving DecidableEq, Repr

/-- Calendar date, the parsed form of the ISO `YYYY-MM-DD` strings stored in
`Transaction.date`. -/
structure Date : Type where
  year : ℤ
  month : ℤ
  day : ℤ
deriving DecidableEq, Repr

/-- Lexicographic comparison of dates: the order `datetime.fromisoformat`
and plain string comparison both induce on well-formed ISO dates. -/
def Date.le (a b : Date) : Bool :=
  (a.year < b.year) ∨ (a.year = b.year ∧ a.month < b.month) ∨
    (a.year = b.year ∧ a.month = b.month ∧ a.day ≤ b.day)

/-- Day number of a civil date (days since 1970-01-01), the standard
civil-from-days algorithm; `(d2 - d1).days` in the source is
`d2.toDays - d1.toDays`. -/
def Date.toDays (dt : Date) : ℤ :=
  let y := if dt.month ≤ 2 then dt.year - 1 else dt.year
  let era := (if 0 ≤ y then y else y - 399) / 400
  let yoe := y - era * 400
  let mp := (dt.month + 9) % 12
  let doy := (153 * mp + 2) / 5 + dt.day - 1
  let doe := yoe * 365 + yoe / 4 - yoe / 100 + doy
  era * 146097 + doe - 719468

/-- Embedded transaction: kind tag (`Income` vs `Expense` subclass),
amount (stored as a magnitude for both kinds), category and date. -/
structure Transaction : Type where
  kind : TKind
  amount : ℚ
  category : String
  date : Date
deriving DecidableEq, Repr

namespace Transaction

/-- Match on `isinstance(t, Expense)`. -/
def isExpense (t : Transaction) : Bool := t.kind = TKind.expense

/-- Match on `isinstance(t, Income)`. -/
def isIncome (t : Transaction) : Bool := t.kind = TKind.income

end Transaction

/-- Code-point lexicographic comparison of character lists — exactly the
comparison Python applies to strings. -/
def charListLe : List Char → List Char → Bool
  | [], _ => true
  | _ :: _, [] => false
  | c :: cs, d :: ds =>
    if c.toNat < d.toNat then true
    else if d.toNat < c.toNat then false
    else charListLe cs ds

/-- Python string comparison `a <= b` (code-point lexicographic). -/
def strLe (a b : String) : Bool := charListLe a.data b.data

/-! ## List helpers shared by the analytics embedding -/

/-- Python `statistics.mean`: sum divided by length (callers guard
non-empty input; on `[]` this is `0/0 = 0`). -/
def meanQ (xs : List ℚ) : ℚ := xs.sum / xs.length

/-- Python `sorted` on numbers (a stable sort; any stable sorting
algorithm is extensionally the same function). -/
def sortedQ (xs : List ℚ) : List ℚ := xs.insertionSort (fun a b => a ≤ b)

/-- Python `min(xs)` for non-empty `xs` (junk value 0 on `[]`, a branch the
source never reaches). -/
def minQ (xs : List ℚ) : ℚ :=
  match xs with
  | [] => 0
  | h :: t => t.foldl min h

/-- Python `max(xs)` for non-empty `xs` (junk value 0 on `[]`). -/
def maxQ (xs : List ℚ) : ℚ :=
  match xs with
  | [] => 0
  | h :: t => t.foldl max h

/-- Python `statistics.median`: middle element of the sorted list, or the
average of the two middle elements when the length is even. -/
def medianQ (xs : List ℚ) : ℚ :=
  if xs.length % 2 = 1 then (sortedQ xs).getD (xs.length / 2) 0
  else ((sortedQ xs).getD (xs.length / 2 - 1) 0 + (sortedQ xs).getD (xs.length / 2) 0) / 2

/-- The distinct values of a list in order of first occurrence — the key
order of a Python `collections.Counter` built from the list. -/
def uniqFirst {α : Type} [DecidableEq α] : List α → List α
  | [] => []
  | x :: t => x :: (uniqFirst t).filter (fun y => y ≠ x)

/-- Python `statistics.mode` (3.8+ semantics, `Counter(xs).most_common(1)`):
the first value, in order of first occurrence, whose multiplicity is
maximal.  Junk value 0 on `[]` (the source guards non-empty input). -/
def firstMode (xs : List ℚ) : ℚ :=
  let u := uniqFirst xs
  match u.find? (fun c => u.all (fun y => xs.count y ≤ xs.count c)) with
  | some m => m
  | none => 0

/-- Sample variance with the `n - 1` denominator, the square of
`statistics.stdev`; 0 when fewer than two points. -/
def varS (xs : List ℚ) : ℚ :=
  if xs.length ≤ 1 then 0
  else ((xs.map (fun x => (x - meanQ xs) ^ 2)).sum) / (xs.length - 1)

/-- Prefix sums, `np.cumsum`. -/
def cumsumQ (xs : List ℚ) : List ℚ := (xs.scanl (fun a b => a + b) 0).tail

/-- Linear-interpolation percentile, the default method of
`np.percentile(arr, p)`: position `(n-1)*p/100` in the sorted list,
interpolating between the two neighbouring order statistics. -/
def percentileQ (xs : List ℚ) (p : ℚ) : ℚ :=
  let s := sortedQ xs
  let pos := ((xs.length : ℚ) - 1) * p / 100
  let i := (⌊pos⌋).toNat
  let g := pos - ((⌊pos⌋ : ℤ) : ℚ)
  s.getD i 0 + g * (s.getD (i + 1) 0 - s.getD i 0)

/-! ## Ordinary least squares over a list of `(x, y)` points

`sklearn.linear_model.LinearRegression` on one feature computes the
closed-form OLS fit: slope `Sxy / Sxx`, intercept `ybar - slope * xbar`.
On a degenerate design (`Sxx = 0`, all x equal) its least-squares solver
returns the minimum-norm solution, slope 0.  `model.score` is
`r2_score = 1 - SSres / SStot`, with the constant-target convention
(`force_finite`): when `SStot = 0` the score is 1 for a perfect fit and 0
otherwise. -/

/-- Mean of the x-coordinates. -/
def xbar (pts : List (ℚ × ℚ)) : ℚ := meanQ (pts.map Prod.fst)

/-- Mean of the y-coordinates. -/
def ybar (pts : List (ℚ × ℚ)) : ℚ := meanQ (pts.map Prod.snd)

/-- Centered second moment of x. -/
def sxx (pts : List (ℚ × ℚ)) : ℚ := (pts.map (fun p => (p.1 - xbar pts) ^ 2)).sum

/-- Centered cross moment. -/
def sxy (pts : List (ℚ × ℚ)) : ℚ :=
  (pts.map (fun p => (p.1 - xbar pts) * (p.2 - ybar pts))).sum

/-- OLS slope (`model.coef_[0]`). -/
def olsSlope (pts : List (ℚ × ℚ)) : ℚ :=
  if sxx pts = 0 then 0 else sxy pts / sxx pts

/-- OLS intercept (`model.intercept_`). -/
def olsIntercept (pts : List (ℚ × ℚ)) : ℚ := ybar pts - olsSlope pts * xbar pts

/-- Residual sum of squares of the OLS fit. -/
def ssRes (pts : List (ℚ × ℚ)) : ℚ :=
  (pts.map (fun p => (p.2 - (olsSlope pts * p.1 + olsIntercept pts)) ^ 2)).sum

/-- Total sum of squares. -/
def ssTot (pts : List (ℚ × ℚ)) : ℚ := (pts.map (fun p => (p.2 - ybar pts) ^ 2)).sum

/-- The coefficient of determination as `sklearn` (`model.score`) computes
it, constant-target convention included. -/
def r2score (pts : List (ℚ × ℚ)) : ℚ :=
  if ssTot pts = 0 then (if ssRes pts = 0 then 1 else 0)
  else 1 - ssRes pts / ssTot pts

/-- Residual sum of squares of an arbitrary affine candidate `a * x + c`,
used to state that the OLS fit minimizes squared residuals. -/
def ssResAt (pts : List (ℚ × ℚ)) (a c : ℚ) : ℚ :=
  (pts.map (fun p => (p.2 - (a * p.1 + c)) ^ 2)).sum

/-! ## `FinanceAnalyzer` (`finance_analytics.py`) -/

namespace FinanceAnalyzer

/-- Result dictionary of `calculate_statistics`.  `std_dev` is the one
field the source computes through a square root, hence its type `ℝ`. -/
structure StatsResult : Type where
  mean : ℚ
  median : ℚ
  mode : ℚ
  std_dev : ℝ
  min : ℚ
  max : ℚ

/-- Embedding of `FinanceAnalyzer.calculate_statistics`: on `[]` a
dictionary of zeros, otherwise mean, median, mode (first-encountered
maximum-multiplicity value), sample standard deviation (0 when `n = 1`),
min and max, each rounded to 2 decimal places. -/
noncomputable def calculate_statistics (amounts : List ℚ) : StatsResult :=
  if amounts.isEmpty then ⟨0, 0, 0, 0, 0, 0⟩
  else
    { mean := round2 (meanQ amounts)
      median := round2 (medianQ amounts)
      mode := round2 (firstMode amounts)
      std_dev := round2 (Real.sqrt ((varS amounts : ℚ) : ℝ))
      min := round2 (minQ amounts)
      max := round2 (maxQ amounts) }

/-- Result dictionary of `numpy_operations`.  The empty-input branch of the
source returns only the keys `sum`, `mean` and `percentile_75`; the keys
`percentile_25` and `cumulative_sum` are absent from it, embedded as
`Option` fields that are `none` exactly when the source dictionary lacks
the key. -/
structure NumpyOps : Type where
  sum : ℚ
  mean : ℚ
  percentile_25 : Option ℚ
  percentile_75 : ℚ
  cumulative_sum : Option (List ℚ)
deriving DecidableEq, Repr

/-- Embedding of `FinanceAnalyzer.numpy_operations`. -/
def numpy_operations (amounts : List ℚ) : NumpyOps :=
  if amounts.isEmpty then ⟨0, 0, none, 0, none⟩
  else
    { sum := amounts.sum
      mean := meanQ amounts
      percentile_25 := some (percentileQ amounts 25)
      percentile_75 := percentileQ amounts 75
      cumulative_sum := some (cumsumQ amounts) }

/-- The expense records of a transaction list
(`[t for t in transactions if isinstance(t, Expense)]`). -/
def expensesOf (txs : List Transaction) : List Transaction :=
  txs.filter Transaction.isExpense

/-- Stable sort by date (`expenses.sort(key=lambda x: x.date)`). -/
def sortByDate (l : List Transaction) : List Transaction :=
  l.insertionSort (fun a b => Date.le a.date b.date = true)

/-- The regression points of `predict_spending`: for each expense, in date
order, the pair (day offset from the first expense, amount). -/
def predPoints (txs : List Transaction) : List (ℚ × ℚ) :=
  match sortByDate (expensesOf txs) with
  | [] => []
  | e0 :: rest =>
    (e0 :: rest).map (fun e => (((e.date.toDays - e0.date.toDays : ℤ) : ℚ), e.amount))

/-- The last day offset (`X[-1][0]`). -/
def lastX (pts : List (ℚ × ℚ)) : ℚ := (pts.getLastD (0, 0)).1

/-- Result dictionary of `predict_spending`. -/
structure PredictResult : Type where
  prediction : ℚ
  daily_rate : ℚ
  r_squared : ℚ
  days_ahead : ℤ
deriving DecidableEq, Repr

/-- Embedding of `FinanceAnalyzer.predict_spending` on the primary
(`HAS_SKLEARN`) path: with fewer than 2 expense records it returns the
default dictionary of zeros (no exception is raised); otherwise it fits
OLS over (day offset, amount), evaluates the line `days_ahead` days after
the last day offset, and rounds. -/
def predict_spending (txs : List Transaction) (days_ahead : ℤ) : PredictResult :=
  if (expensesOf txs).length < 2 then ⟨0, 0, 0, days_ahead⟩
  else
    { prediction := round2 (olsSlope (predPoints txs)
        * (lastX (predPoints txs) + (days_ahead : ℚ)) + olsIntercept (predPoints txs))
      daily_rate := round2 (olsSlope (predPoints txs))
      r_squared := round3 (r2score (predPoints txs))
      days_ahead := days_ahead }

/-- Embedding of the `scipy.stats.linregress` fallback branch of
`predict_spending` (taken only when `sklearn` is not importable):
`linregress` raises on an all-identical x series (`none` here), and its
`r_value` is defined as 0 when the y series has no variance, so the
degenerate `r_squared` is 0 instead of 1. -/
def predict_spending_fallback (txs : List Transaction) (days_ahead : ℤ) :
    Option PredictResult :=
  if (expensesOf txs).length < 2 then some ⟨0, 0, 0, days_ahead⟩
  else if sxx (predPoints txs) = 0 then none
  else
    some
      { prediction := round2 (olsSlope (predPoints txs)
          * (lastX (predPoints txs) + (days_ahead : ℚ)) + olsIntercept (predPoints txs))
        daily_rate := round2 (olsSlope (predPoints txs))
        r_squared := round3 (if ssTot (predPoints txs) = 0 then 0
          else sxy (predPoints txs) ^ 2 / (sxx (predPoints txs) * ssTot (predPoints txs)))
        days_ahead := days_ahead }

/-- Calendar month of a transaction date: the embedding of the key
`t.date[:7]` (the `YYYY-MM` prefix of the ISO string). -/
def monthKey (d : Date) : ℤ × ℤ := (d.year, d.month)

/-- Chronological comparison of month keys. -/
def monthLe (a b : ℤ × ℤ) : Bool := a.1 < b.1 ∨ (a.1 = b.1 ∧ a.2 ≤ b.2)

/-- Total income booked in month `m` — the value the `defaultdict` of
`monthly_trend` holds at `m` (0 when no income falls in `m`). -/
def incomeInMonth (txs : List Transaction) (m : ℤ × ℤ) : ℚ :=
  ((txs.filter (fun t => t.isIncome && monthKey t.date = m)).map Transaction.amount).sum

/-- Total expense booked in month `m`; the source puts every
non-`Income` transaction on this side. -/
def expenseInMonth (txs : List Transaction) (m : ℤ × ℤ) : ℚ :=
  ((txs.filter (fun t => !t.isIncome && monthKey t.date = m)).map Transaction.amount).sum

/-- `sorted(set(income_by_month.keys() + expense_by_month.keys()))`: every
month in which any transaction falls, each once, chronologically. -/
def monthsOf (txs : List Transaction) : List (ℤ × ℤ) :=
  (uniqFirst (txs.map (fun t => monthKey t.date))).insertionSort
    (fun a b => monthLe a b = true)

/-- Embedding of `FinanceAnalyzer.monthly_trend`: the sorted month keys,
with the income and expense totals of each month in the same order. -/
def monthly_trend (txs : List Transaction) :
    List (ℤ × ℤ) × List ℚ × List ℚ :=
  (monthsOf txs, (monthsOf txs).map (incomeInMonth txs),
    (monthsOf txs).map (expenseInMonth txs))

/-- Total expense over all categories. -/
def totalExpense (txs : List Transaction) : ℚ :=
  ((expensesOf txs).map Transaction.amount).sum

/-- Expense total of one category. -/
def categoryExpenseTotal (txs : List Transaction) (c : String) : ℚ :=
  (((expensesOf txs).filter (fun t => t.category = c)).map Transaction.amount).sum

/-- Embedding of `FinanceAnalyzer.category_percentages`: share of each
expense category, rounded via `round(x, 1)`, sorted by share descending
(stable, so ties stay in first-occurrence order). -/
def category_percentages (txs : List Transaction) : List (String × ℚ) :=
  if (expensesOf txs).isEmpty then []
  else
    ((uniqFirst ((expensesOf txs).map Transaction.category)).map (fun c =>
        (c, (rndHalfEven (10 * (categoryExpenseTotal txs c / totalExpense txs * 100)) : ℚ) / 10))).insertionSort
      (fun a b => b.2 ≤ a.2)

end FinanceAnalyzer

/-! ## Category truncation (`Analytics/analytics.py`, `_plot_category_trends`)

The pandas pipeline groups expenses by category (group keys sorted
alphabetically), then keeps `nlargest(n)` categories by total — sorted by
total descending, ties resolved toward the earlier (alphabetically
smaller) key — and drops the rest; no remainder bucket is built. -/

namespace AnalyticsView

/-- All expense category buckets `(category, expense_total)`, ordered by
total descending, ties alphabetical. -/
def sortedCatBuckets (txs : List Transaction) : List (String × ℚ) :=
  (((uniqFirst ((FinanceAnalyzer.expensesOf txs).map Transaction.category)).insertionSort
      (fun a b => strLe a b = true)).map
    (fun c => (c, FinanceAnalyzer.categoryExpenseTotal txs c))).insertionSort
    (fun a b => b.2 ≤ a.2)

/-- The `nlargest(n)` truncation used by `_plot_category_trends` (the
source instantiates `n = 4`): the first `n` buckets, the remainder
silently dropped. -/
def top_categories (txs : List Transaction) (n : ℕ) : List (String × ℚ) :=
  (sortedCatBuckets txs).take n

/-- The truncation exactly as `_plot_category_trends` calls it. -/
def plot_top_categories (txs : List Transaction) : List (String × ℚ) :=
  top_categories txs 4

end AnalyticsView

/-! ## Trend classification (`finance_app.py`, `generate_prediction`) and
the dashboard prediction (`dashboard/app.py`, `run_prediction`) -/

/-- The three trend classes shown by the consuming views
(increasing / decreasing / stable-flat). -/
inductive TrendLabel : Type
  | increasing : TrendLabel
  | decreasing : TrendLabel
  | stable : TrendLabel
deriving DecidableEq, Repr

/-- Trend classification of `generate_prediction` in `finance_app.py`
(`rate > 0`, `rate < 0`, else stable); `run_prediction` in
`dashboard/app.py` classifies its slope with the same three-way test. -/
def trendOf (rate : ℚ) : TrendLabel :=
  if 0 < rate then TrendLabel.increasing
  else if rate < 0 then TrendLabel.decreasing
  else TrendLabel.stable

/-- The index-to-amount regression points of `run_prediction`. -/
def dashPoints (recent : List ℚ) : List (ℚ × ℚ) :=
  ((List.range recent.length).zip recent).map (fun p => ((p.1 : ℚ), p.2))

/-- Embedding of `run_prediction` in `dashboard/app.py`: given the
chronological magnitudes of recent expenses, it needs at least 3 of them
(`none` otherwise), regresses amount on index, predicts the next index and
clamps the prediction to 0 from below. -/
def run_prediction (recent : List ℚ) : Option (ℚ × TrendLabel) :=
  if recent.length < 3 then none
  else
    some (max 0 (olsSlope (dashPoints recent) * (recent.length : ℚ)
        + olsIntercept (dashPoints recent)),
      trendOf (olsSlope (dashPoints recent)))

/-! ## Helper lemmas: rounding -/

section RoundLemmas

variable {α : Type} [LinearOrderedField α] [FloorRing α]

theorem rndHalfEven_abs_le (x : α) : |((rndHalfEven x : ℤ) : α) - x| ≤ 1/2 := by
  have h0 : ((⌊x⌋ : ℤ) : α) ≤ x := Int.floor_le x
  have h1 : x < ((⌊x⌋ : ℤ) : α) + 1 := Int.lt_floor_add_one x
  unfold rndHalfEven
  split_ifs <;> rw [abs_le] <;> push_cast <;> constructor <;> linarith

theorem rndHalfEven_mono {x y : α} (h : x ≤ y) : rndHalfEven x ≤ rndHalfEven y := by
  have hf : (⌊x⌋ : ℤ) ≤ ⌊y⌋ := Int.floor_le_floor h
  rcases lt_or_eq_of_le hf with hlt | heq
  · have hxle : rndHalfEven x ≤ ⌊x⌋ + 1 := by
      unfold rndHalfEven; split_ifs <;> omega
    have hyge : (⌊y⌋ : ℤ) ≤ rndHalfEven y := by
      unfold rndHalfEven; split_ifs <;> omega
    omega
  · unfold rndHalfEven
    rw [heq]
    have hxy : x - ((⌊y⌋ : ℤ) : α) ≤ y - ((⌊y⌋ : ℤ) : α) := by linarith
    split_ifs <;> first | omega | (exfalso; linarith)

theorem round2_eq_div (x : α) :
    round2 x - x = (((rndHalfEven (100 * x) : ℤ) : α) - 100 * x) / 100 := by
  unfold round2; field_simp

theorem round2_abs_le (x : α) : |round2 x - x| ≤ 1/200 := by
  rw [round2_eq_div, abs_div, abs_of_pos (show (0:α) < 100 by norm_num)]
  calc |(((rndHalfEven (100*x) : ℤ):α) - 100 * x)| / 100
      ≤ (1/2) / 100 := by gcongr; exact rndHalfEven_abs_le (100 * x)
    _ = 1/200 := by norm_num

theorem round3_eq_div (x : α) :
    round3 x - x = (((rndHalfEven (1000 * x) : ℤ) : α) - 1000 * x) / 1000 := by
  unfold round3; field_simp

theorem round3_abs_le (x : α) : |round3 x - x| ≤ 1/2000 := by
  rw [round3_eq_div, abs_div, abs_of_pos (show (0:α) < 1000 by norm_num)]
  calc |(((rndHalfEven (1000*x) : ℤ):α) - 1000 * x)| / 1000
      ≤ (1/2) / 1000 := by gcongr; exact rndHalfEven_abs_le (1000 * x)
    _ = 1/2000 := by norm_num

theorem round2_mono {x y : α} (h : x ≤ y) : round2 x ≤ round2 y := by
  unfold round2
  have hr : rndHalfEven (100 * x) ≤ rndHalfEven (100 * y) :=
    rndHalfEven_mono (by linarith)
  have hc : ((rndHalfEven (100 * x) : ℤ) : α) ≤ ((rndHalfEven (100 * y) : ℤ) : α) := by
    exact_mod_cast hr
  gcongr

end RoundLemmas

/-! ## Helper lemmas: list algebra -/

section ListLemmas

variable {β : Type} {κ : Type}

theorem sum_map_add (l : List β) (f g : β → ℚ) :
    (l.map (fun x => f x + g x)).sum = (l.map f).sum + (l.map g).sum := by
  induction l with
  | nil => simp
  | cons h t ih => simp only [List.map_cons, List.sum_cons, ih]; ring

theorem sum_map_mul_left (c : ℚ) (l : List β) (f : β → ℚ) :
    (l.map (fun x => c * f x)).sum = c * (l.map f).sum := by
  induction l with
  | nil => simp
  | cons h t ih => simp only [List.map_cons, List.sum_cons, ih]; ring

theorem sum_map_const (l : List β) (c : ℚ) :
    (l.map (fun _ => c)).sum = l.length * c := by
  induction l with
  | nil => simp
  | cons h t ih => simp only [List.map_cons, List.sum_cons, ih, List.length_cons]; push_cast; ring

theorem sum_eq_length_mul (l : List ℚ) (v : ℚ) (h : ∀ x ∈ l, x = v) :
    l.sum = l.length * v := by
  induction l with
  | nil => simp
  | cons a t ih =>
    have ha : a = v := h a (by simp)
    have ht : t.sum = t.length * v := ih (fun x hx => h x (by simp [hx]))
    simp only [List.sum_cons, ht, ha, List.length_cons]; push_cast; ring

theorem length_mul_le_sum (l : List ℚ) (a : ℚ) (h : ∀ x ∈ l, a ≤ x) :
    (l.length : ℚ) * a ≤ l.sum := by
  induction l with
  | nil => simp
  | cons b t ih =>
    have hb : a ≤ b := h b (by simp)
    have ht := ih (fun x hx => h x (by simp [hx]))
    simp only [List.length_cons, List.sum_cons]; push_cast; linarith

theorem sum_le_length_mul (l : List ℚ) (b : ℚ) (h : ∀ x ∈ l, x ≤ b) :
    l.sum ≤ (l.length : ℚ) * b := by
  induction l with
  | nil => simp
  | cons a t ih =>
    have ha : a ≤ b := h a (by simp)
    have ht := ih (fun x hx => h x (by simp [hx]))
    simp only [List.length_cons, List.sum_cons]; push_cast; linarith

theorem eq_zero_of_sum_zero_of_nonneg (l : List ℚ) (hnn : ∀ x ∈ l, 0 ≤ x)
    (h : l.sum = 0) : ∀ x ∈ l, x = 0 := by
  induction l with
  | nil => simp
  | cons a t ih =>
    have ha : 0 ≤ a := hnn a (by simp)
    have htn : ∀ x ∈ t, 0 ≤ x := fun x hx => hnn x (by simp [hx])
    have hts : 0 ≤ t.sum := List.sum_nonneg htn
    have has : a = 0 := by simp only [List.sum_cons] at h; linarith
    have hts0 : t.sum = 0 := by simp only [List.sum_cons] at h; linarith
    intro x hx
    rcases List.mem_cons.mp hx with hx | hx
    · rw [hx, has]
    · exact ih htn hts0 x hx

theorem sum_filter_partition (l : List β) (p : β → Bool) (val : β → ℚ) :
    ((l.filter p).map val).sum + ((l.filter (fun x => !p x)).map val).sum
      = (l.map val).sum := by
  induction l with
  | nil => simp
  | cons a t ih =>
    by_cases hp : p a
    · simp [List.filter_cons, hp]; linarith
    · simp [List.filter_cons, hp]; linarith

theorem foldl_min_le_init (l : List ℚ) (a : ℚ) : l.foldl min a ≤ a := by
  induction l generalizing a with
  | nil => simp
  | cons b t ih =>
    simp only [List.foldl_cons]
    exact le_trans (ih (min a b)) (min_le_left a b)

theorem foldl_min_le_mem (l : List ℚ) (a x : ℚ) (hx : x ∈ l) : l.foldl min a ≤ x := by
  induction l generalizing a with
  | nil => simp at hx
  | cons b t ih =>
    simp only [List.foldl_cons]
    rcases List.mem_cons.mp hx with h | h
    · subst h
      exact le_trans (foldl_min_le_init t (min a x)) (min_le_right a x)
    · exact ih (min a b) h

theorem init_le_foldl_max (l : List ℚ) (a : ℚ) : a ≤ l.foldl max a := by
  induction l generalizing a with
  | nil => simp
  | cons b t ih =>
    simp only [List.foldl_cons]
    exact le_trans (le_max_left a b) (ih (max a b))

theorem mem_le_foldl_max (l : List ℚ) (a x : ℚ) (hx : x ∈ l) : x ≤ l.foldl max a := by
  induction l generalizing a with
  | nil => simp at hx
  | cons b t ih =>
    simp only [List.foldl_cons]
    rcases List.mem_cons.mp hx with h | h
    · subst h
      exact le_trans (le_max_right a x) (init_le_foldl_max t (max a x))
    · exact ih (max a b) h

theorem minQ_le_mem (xs : List ℚ) (x : ℚ) (hx : x ∈ xs) : minQ xs ≤ x := by
  match xs with
  | [] => simp at hx
  | h :: t =>
    show (h :: t).tail.foldl min h ≤ x
    rcases List.mem_cons.mp hx with hh | hh
    · subst hh; exact foldl_min_le_init t x
    · exact foldl_min_le_mem t h x hh

theorem mem_le_maxQ (xs : List ℚ) (x : ℚ) (hx : x ∈ xs) : x ≤ maxQ xs := by
  match xs with
  | [] => simp at hx
  | h :: t =>
    show x ≤ (h :: t).tail.foldl max h
    rcases List.mem_cons.mp hx with hh | hh
    · subst hh; exact init_le_foldl_max t x
    · exact mem_le_foldl_max t h x hh

end ListLemmas

/-! ## Helper lemmas: first-occurrence deduplication and the mode -/

section UniqLemmas

variable {α : Type} [DecidableEq α]

theorem mem_uniqFirst {x : α} : ∀ {l : List α}, x ∈ uniqFirst l ↔ x ∈ l := by
  intro l
  induction l with
  | nil => simp [uniqFirst]
  | cons a t ih =>
    rw [uniqFirst]
    constructor
    · intro h
      rcases List.mem_cons.mp h with h | h
      · simp [h]
      · rcases List.mem_filter.mp h with ⟨hm, _⟩
        exact List.mem_cons.mpr (Or.inr (ih.mp hm))
    · intro h
      rcases List.mem_cons.mp h with h | h
      · simp [h]
      · by_cases hxa : x = a
        · simp [hxa]
        · exact List.mem_cons.mpr (Or.inr
            (List.mem_filter.mpr ⟨ih.mpr h, by simp [hxa]⟩))

theorem nodup_uniqFirst : ∀ (l : List α), (uniqFirst l).Nodup := by
  intro l
  induction l with
  | nil => simp [uniqFirst]
  | cons a t ih =>
    rw [uniqFirst]
    refine List.nodup_cons.mpr ⟨?_, ih.filter _⟩
    intro hmem
    rcases List.mem_filter.mp hmem with ⟨_, hne⟩
    simp at hne

theorem uniqFirst_ne_nil {l : List α} (h : l ≠ []) : uniqFirst l ≠ [] := by
  match l with
  | [] => exact absurd rfl h
  | a :: t => rw [uniqFirst]; simp

omit [DecidableEq α] in
/-- A non-empty list has a maximizer for any rank function. -/
theorem exists_argmax (f : α → ℕ) :
    ∀ (l : List α), l ≠ [] → ∃ m ∈ l, ∀ y ∈ l, f y ≤ f m := by
  intro l
  induction l with
  | nil => intro h; exact absurd rfl h
  | cons a t ih =>
    intro _
    match ht : t with
    | [] => exact ⟨a, by simp, by simp⟩
    | b :: t2 =>
      obtain ⟨m, hm, hmax⟩ := ih (by simp)
      by_cases hc : f a ≤ f m
      · refine ⟨m, by simp [hm], ?_⟩
        intro y hy
        rcases List.mem_cons.mp hy with h | h
        · rw [h]; exact hc
        · exact hmax y h
      · refine ⟨a, by simp, ?_⟩
        intro y hy
        rcases List.mem_cons.mp hy with h | h
        · rw [h]
        · exact le_trans (hmax y h) (le_of_not_le hc)

omit [DecidableEq α] in
/-- `find?` returns the first element satisfying `p`: everything before it
in the list fails `p`. -/
theorem find?_first {p : α → Bool} :
    ∀ {l : List α} {m : α}, l.find? p = some m →
      ∃ l1 l2, l = l1 ++ m :: l2 ∧ ∀ y ∈ l1, p y = false := by
  intro l
  induction l with
  | nil => intro m h; simp at h
  | cons a t ih =>
    intro m h
    by_cases hpa : p a
    · rw [List.find?_cons_of_pos _ hpa] at h
      obtain rfl : a = m := by injection h
      exact ⟨[], t, rfl, by simp⟩
    · rw [List.find?_cons_of_neg _ (by simpa using hpa)] at h
      obtain ⟨l1, l2, heq, hfail⟩ := ih h
      refine ⟨a :: l1, l2, by simp [heq], ?_⟩
      intro y hy
      rcases List.mem_cons.mp hy with h | h
      · rw [h]; simpa using hpa
      · exact hfail y h

/-- Characterization of `firstMode` on a non-empty list: it is an element
of the list, its multiplicity is maximal, and every distinct value that
occurs before it in first-occurrence order has strictly smaller
multiplicity. -/
theorem firstMode_spec (xs : List ℚ) (hne : xs ≠ []) :
    firstMode xs ∈ xs ∧
    (∀ y ∈ xs, xs.count y ≤ xs.count (firstMode xs)) ∧
    (∃ l1 l2, uniqFirst xs = l1 ++ firstMode xs :: l2 ∧
      ∀ y ∈ l1, xs.count y < xs.count (firstMode xs)) := by
  have hu : uniqFirst xs ≠ [] := uniqFirst_ne_nil hne
  obtain ⟨c, hc, hcmax⟩ := exists_argmax (fun y => xs.count y) (uniqFirst xs) hu
  have hfind : ∃ m, (uniqFirst xs).find?
      (fun c => (uniqFirst xs).all (fun y => xs.count y ≤ xs.count c)) = some m := by
    match hfd : (uniqFirst xs).find?
        (fun c => (uniqFirst xs).all (fun y => xs.count y ≤ xs.count c)) with
    | some m => exact ⟨m, rfl⟩
    | none =>
      exfalso
      have hnone := List.find?_eq_none.mp hfd c hc
      simp only [List.all_eq_true, decide_eq_true_eq] at hnone
      exact hnone (fun y hy => hcmax y hy)
  obtain ⟨m, hm⟩ := hfind
  have hmode : firstMode xs = m := by
    show (match (uniqFirst xs).find?
        (fun c => (uniqFirst xs).all (fun y => xs.count y ≤ xs.count c)) with
      | some m => m
      | none => 0) = m
    rw [hm]
  have hpm := List.find?_some hm
  have hmax : ∀ y ∈ uniqFirst xs, xs.count y ≤ xs.count m := by
    simpa using hpm
  have hmem : m ∈ xs := mem_uniqFirst.mp (List.mem_of_find?_eq_some hm)
  refine ⟨hmode ▸ hmem, ?_, ?_⟩
  · intro y hy
    rw [hmode]
    exact hmax y (mem_uniqFirst.mpr hy)
  · obtain ⟨l1, l2, heq, hfail⟩ := find?_first hm
    refine ⟨l1, l2, by rw [hmode]; exact heq, ?_⟩
    intro y hy
    have hyfail : ((uniqFirst xs).all (fun z => xs.count z ≤ xs.count y)) = false :=
      hfail y hy
    have hex : ∃ z ∈ uniqFirst xs, ¬ (xs.count z ≤ xs.count y) := by
      by_contra hno
      push_neg at hno
      have hall : ((uniqFirst xs).all (fun z => xs.count z ≤ xs.count y)) = true := by
        rw [List.all_eq_true]
        intro z hz
        simpa using hno z hz
      rw [hall] at hyfail
      cases hyfail
    obtain ⟨z, hz, hzy⟩ := hex
    rw [hmode]
    exact lt_of_lt_of_le (lt_of_not_le hzy) (hmax z hz)

end UniqLemmas

/-! ## Helper lemmas: bounds on the descriptive statistics -/

section StatBounds

theorem minQ_le_meanQ (xs : List ℚ) (h : xs ≠ []) : minQ xs ≤ meanQ xs := by
  have hn : (0:ℚ) < xs.length := by exact_mod_cast List.length_pos.mpr h
  unfold meanQ
  rw [le_div_iff₀ hn]
  have hs := length_mul_le_sum xs (minQ xs) (fun x hx => minQ_le_mem xs x hx)
  linarith

theorem meanQ_le_maxQ (xs : List ℚ) (h : xs ≠ []) : meanQ xs ≤ maxQ xs := by
  have hn : (0:ℚ) < xs.length := by exact_mod_cast List.length_pos.mpr h
  unfold meanQ
  rw [div_le_iff₀ hn]
  have hs := sum_le_length_mul xs (maxQ xs) (fun x hx => mem_le_maxQ xs x hx)
  linarith

theorem medianQ_bounds (xs : List ℚ) (h : xs ≠ []) :
    minQ xs ≤ medianQ xs ∧ medianQ xs ≤ maxQ xs := by
  have hn : 0 < xs.length := List.length_pos.mpr h
  have hlen : (sortedQ xs).length = xs.length := List.length_insertionSort _ xs
  unfold medianQ
  split_ifs with hodd
  · have hidx : xs.length / 2 < (sortedQ xs).length := by rw [hlen]; omega
    rw [List.getD_eq_getElem _ _ hidx]
    have hmem : (sortedQ xs)[xs.length / 2] ∈ xs :=
      (List.mem_insertionSort _).mp (List.getElem_mem hidx)
    exact ⟨minQ_le_mem xs _ hmem, mem_le_maxQ xs _ hmem⟩
  · have h2 : 2 ≤ xs.length := by omega
    have hi1 : xs.length / 2 - 1 < (sortedQ xs).length := by rw [hlen]; omega
    have hi2 : xs.length / 2 < (sortedQ xs).length := by rw [hlen]; omega
    rw [List.getD_eq_getElem _ _ hi1, List.getD_eq_getElem _ _ hi2]
    have hm1 : (sortedQ xs)[xs.length / 2 - 1] ∈ xs :=
      (List.mem_insertionSort _).mp (List.getElem_mem hi1)
    have hm2 : (sortedQ xs)[xs.length / 2] ∈ xs :=
      (List.mem_insertionSort _).mp (List.getElem_mem hi2)
    constructor
    · have hb1 := minQ_le_mem xs _ hm1
      have hb2 := minQ_le_mem xs _ hm2
      linarith
    · have hb1 := mem_le_maxQ xs _ hm1
      have hb2 := mem_le_maxQ xs _ hm2
      linarith

end StatBounds

/-! ## Helper lemmas: the least-squares fit -/

section OLSLemmas

theorem sum_sub_const {β : Type} (l : List β) (f : β → ℚ) (c : ℚ) :
    (l.map (fun p => f p - c)).sum = (l.map f).sum - l.length * c := by
  induction l with
  | nil => simp
  | cons a t ih =>
    simp only [List.map_cons, List.sum_cons, ih, List.length_cons]
    push_cast
    ring

theorem sum_center_fst (pts : List (ℚ × ℚ)) :
    (pts.map (fun p => p.1 - xbar pts)).sum = 0 := by
  match pts with
  | [] => simp
  | q :: l =>
    have hn : ((q :: l).length : ℚ) ≠ 0 := by
      simp only [List.length_cons]
      push_cast
      positivity
    rw [sum_sub_const (q :: l) Prod.fst (xbar (q :: l))]
    unfold xbar meanQ
    rw [List.length_map]
    field_simp

theorem sum_center_snd (pts : List (ℚ × ℚ)) :
    (pts.map (fun p => p.2 - ybar pts)).sum = 0 := by
  match pts with
  | [] => simp
  | q :: l =>
    have hn : ((q :: l).length : ℚ) ≠ 0 := by
      simp only [List.length_cons]
      push_cast
      positivity
    rw [sum_sub_const (q :: l) Prod.snd (ybar (q :: l))]
    unfold ybar meanQ
    rw [List.length_map]
    field_simp

theorem sxy_eq_zero_of_sxx_eq_zero (pts : List (ℚ × ℚ)) (h : sxx pts = 0) :
    sxy pts = 0 := by
  have hall : ∀ z ∈ pts.map (fun p => (p.1 - xbar pts) ^ 2), z = 0 :=
    eq_zero_of_sum_zero_of_nonneg _
      (by intro z hz
          rcases List.mem_map.mp hz with ⟨p, _, rfl⟩
          positivity)
      h
  apply List.sum_eq_zero
  intro z hz
  rcases List.mem_map.mp hz with ⟨p, hp, rfl⟩
  have hsq : (p.1 - xbar pts) ^ 2 = 0 :=
    hall _ (List.mem_map.mpr ⟨p, hp, rfl⟩)
  have hx : p.1 - xbar pts = 0 := by
    exact pow_eq_zero_iff (by norm_num) |>.mp hsq
  rw [hx]
  ring

/-- The first normal equation: the OLS residuals sum to zero. -/
theorem sum_resid_eq_zero (pts : List (ℚ × ℚ)) :
    (pts.map (fun p => p.2 - (olsSlope pts * p.1 + olsIntercept pts))).sum = 0 := by
  have hcong :
      pts.map (fun p => p.2 - (olsSlope pts * p.1 + olsIntercept pts))
        = pts.map (fun p => (p.2 - ybar pts) + (- olsSlope pts) * (p.1 - xbar pts)) := by
    apply List.map_congr_left
    intro p _
    unfold olsIntercept
    ring
  rw [hcong, sum_map_add pts (fun p => p.2 - ybar pts)
      (fun p => (- olsSlope pts) * (p.1 - xbar pts)),
    sum_map_mul_left (- olsSlope pts) pts (fun p => p.1 - xbar pts),
    sum_center_snd, sum_center_fst]
  ring

/-- The second normal equation: the residuals are orthogonal to the
centered x-coordinates. -/
theorem sum_resid_mul_center_eq_zero (pts : List (ℚ × ℚ)) :
    (pts.map
      (fun p => (p.2 - (olsSlope pts * p.1 + olsIntercept pts)) * (p.1 - xbar pts))).sum
      = 0 := by
  have hcong :
      pts.map (fun p => (p.2 - (olsSlope pts * p.1 + olsIntercept pts)) * (p.1 - xbar pts))
        = pts.map (fun p => (p.1 - xbar pts) * (p.2 - ybar pts)
            + (- olsSlope pts) * ((p.1 - xbar pts) ^ 2)) := by
    apply List.map_congr_left
    intro p _
    unfold olsIntercept
    ring
  rw [hcong, sum_map_add pts (fun p => (p.1 - xbar pts) * (p.2 - ybar pts))
      (fun p => (- olsSlope pts) * ((p.1 - xbar pts) ^ 2)),
    sum_map_mul_left (- olsSlope pts) pts (fun p => (p.1 - xbar pts) ^ 2)]
  show sxy pts + - olsSlope pts * sxx pts = 0
  unfold olsSlope
  split_ifs with h
  · rw [sxy_eq_zero_of_sxx_eq_zero pts h, h]
    ring
  · field_simp

/-- The fitted line minimizes the sum of squared residuals over all affine
candidates: the fit of `predict_spending` is ordinary least squares. -/
theorem ols_optimal (pts : List (ℚ × ℚ)) (a c : ℚ) :
    ssRes pts ≤ ssResAt pts a c := by
  have hk :
      pts.map (fun p => (p.2 - (a * p.1 + c)) ^ 2)
        = pts.map (fun p =>
            ((p.2 - (olsSlope pts * p.1 + olsIntercept pts)) ^ 2
              + ((2 * (olsSlope pts - a))
                  * ((p.2 - (olsSlope pts * p.1 + olsIntercept pts)) * (p.1 - xbar pts))
                + (2 * ((olsSlope pts - a) * xbar pts + (olsIntercept pts - c)))
                  * (p.2 - (olsSlope pts * p.1 + olsIntercept pts)))
              + ((olsSlope pts - a) * (p.1 - xbar pts)
                  + ((olsSlope pts - a) * xbar pts + (olsIntercept pts - c))) ^ 2)) := by
    apply List.map_congr_left
    intro p _
    ring
  unfold ssResAt
  rw [hk]
  rw [sum_map_add pts _ (fun p =>
    ((olsSlope pts - a) * (p.1 - xbar pts)
      + ((olsSlope pts - a) * xbar pts + (olsIntercept pts - c))) ^ 2)]
  rw [sum_map_add pts (fun p => (p.2 - (olsSlope pts * p.1 + olsIntercept pts)) ^ 2) _]
  rw [sum_map_add pts
    (fun p => (2 * (olsSlope pts - a))
      * ((p.2 - (olsSlope pts * p.1 + olsIntercept pts)) * (p.1 - xbar pts)))
    (fun p => (2 * ((olsSlope pts - a) * xbar pts + (olsIntercept pts - c)))
      * (p.2 - (olsSlope pts * p.1 + olsIntercept pts)))]
  rw [sum_map_mul_left (2 * (olsSlope pts - a)) pts
    (fun p => (p.2 - (olsSlope pts * p.1 + olsIntercept pts)) * (p.1 - xbar pts))]
  rw [sum_map_mul_left (2 * ((olsSlope pts - a) * xbar pts + (olsIntercept pts - c))) pts
    (fun p => p.2 - (olsSlope pts * p.1 + olsIntercept pts))]
  rw [sum_resid_eq_zero, sum_resid_mul_center_eq_zero]
  have hnn : (0:ℚ) ≤ (pts.map (fun p =>
      ((olsSlope pts - a) * (p.1 - xbar pts)
        + ((olsSlope pts - a) * xbar pts + (olsIntercept pts - c))) ^ 2)).sum := by
    apply List.sum_nonneg
    intro z hz
    rcases List.mem_map.mp hz with ⟨p, _, rfl⟩
    positivity
  unfold ssRes
  linarith

end OLSLemmas

/-! ## Helper lemmas: degenerate (constant-target) series -/

section ConstSeries

theorem ybar_const (pts : List (ℚ × ℚ)) (v : ℚ) (hne : pts ≠ [])
    (h : ∀ p ∈ pts, p.2 = v) : ybar pts = v := by
  unfold ybar meanQ
  have hsum : (pts.map Prod.snd).sum = ((pts.map Prod.snd).length : ℚ) * v := by
    apply sum_eq_length_mul
    intro x hx
    rcases List.mem_map.mp hx with ⟨p, hp, rfl⟩
    exact h p hp
  rw [hsum, List.length_map]
  have hn : ((pts.length : ℚ)) ≠ 0 := by
    have hp := List.length_pos.mpr hne
    exact_mod_cast Nat.pos_iff_ne_zero.mp hp
  field_simp

theorem sxy_const (pts : List (ℚ × ℚ)) (v : ℚ) (h : ∀ p ∈ pts, p.2 = v) :
    sxy pts = 0 := by
  match pts with
  | [] => simp [sxy]
  | q :: l =>
    have hy := ybar_const (q :: l) v (by simp) h
    unfold sxy
    apply List.sum_eq_zero
    intro z hz
    rcases List.mem_map.mp hz with ⟨p, hp, rfl⟩
    rw [hy, h p hp]
    ring

theorem olsSlope_const (pts : List (ℚ × ℚ)) (v : ℚ) (h : ∀ p ∈ pts, p.2 = v) :
    olsSlope pts = 0 := by
  unfold olsSlope
  split_ifs with hs
  · rfl
  · rw [sxy_const pts v h]
    simp

theorem olsIntercept_const (pts : List (ℚ × ℚ)) (v : ℚ) (hne : pts ≠ [])
    (h : ∀ p ∈ pts, p.2 = v) : olsIntercept pts = v := by
  unfold olsIntercept
  rw [olsSlope_const pts v h, ybar_const pts v hne h]
  ring

theorem ssRes_const (pts : List (ℚ × ℚ)) (v : ℚ) (hne : pts ≠ [])
    (h : ∀ p ∈ pts, p.2 = v) : ssRes pts = 0 := by
  unfold ssRes
  apply List.sum_eq_zero
  intro z hz
  rcases List.mem_map.mp hz with ⟨p, hp, rfl⟩
  rw [olsSlope_const pts v h, olsIntercept_const pts v hne h, h p hp]
  ring

theorem ssTot_const (pts : List (ℚ × ℚ)) (v : ℚ) (hne : pts ≠ [])
    (h : ∀ p ∈ pts, p.2 = v) : ssTot pts = 0 := by
  unfold ssTot
  apply List.sum_eq_zero
  intro z hz
  rcases List.mem_map.mp hz with ⟨p, hp, rfl⟩
  rw [ybar_const pts v hne h, h p hp]
  ring

theorem r2score_const (pts : List (ℚ × ℚ)) (v : ℚ) (hne : pts ≠ [])
    (h : ∀ p ∈ pts, p.2 = v) : r2score pts = 1 := by
  unfold r2score
  rw [ssTot_const pts v hne h, ssRes_const pts v hne h]
  simp

end ConstSeries

/-! ## Helper lemmas: the forecast point series -/

section PredPoints

open FinanceAnalyzer

theorem length_predPoints (txs : List Transaction) :
    (predPoints txs).length = (expensesOf txs).length := by
  have hlen : (sortByDate (expensesOf txs)).length = (expensesOf txs).length := by
    unfold sortByDate
    exact List.length_insertionSort _ _
  unfold predPoints
  cases hs : sortByDate (expensesOf txs) with
  | nil =>
    rw [hs] at hlen
    simpa using hlen
  | cons e0 rest =>
    rw [hs] at hlen
    simpa using hlen

theorem predPoints_snd_const (txs : List Transaction) (v : ℚ)
    (h : ∀ t ∈ expensesOf txs, t.amount = v) :
    ∀ p ∈ predPoints txs, p.2 = v := by
  unfold predPoints
  cases hs : sortByDate (expensesOf txs) with
  | nil => simp
  | cons e0 rest =>
    intro p hp
    rcases List.mem_map.mp hp with ⟨e, he, rfl⟩
    have hmem : e ∈ sortByDate (expensesOf txs) := by
      rw [hs]
      exact he
    have hment : e ∈ expensesOf txs := by
      unfold sortByDate at hmem
      exact (List.mem_insertionSort _).mp hmem
    exact h e hment

theorem predPoints_ne_nil (txs : List Transaction)
    (h : 2 ≤ (expensesOf txs).length) : predPoints txs ≠ [] := by
  intro hnil
  have := length_predPoints txs
  rw [hnil] at this
  simp at this
  omega

end PredPoints

/-! ## Helper lemmas: grouped sums -/

section GroupSum

variable {β κ : Type} [DecidableEq κ]

/-- Summing each group of a keyed partition recovers the total: the
category buckets conserve the overall expense total. -/
theorem sum_group (key : β → κ) (val : β → ℚ) :
    ∀ (u : List κ) (l : List β), u.Nodup → (∀ x ∈ l, key x ∈ u) →
      (u.map (fun k => ((l.filter (fun x => key x = k)).map val).sum)).sum
        = (l.map val).sum := by
  intro u
  induction u with
  | nil =>
    intro l _ hcov
    have hl : l = [] := by
      cases l with
      | nil => rfl
      | cons a t => exact absurd (hcov a (by simp)) (by simp)
    rw [hl]
    simp
  | cons k u2 ih =>
    intro l hnd hcov
    have hpart := sum_filter_partition l (fun x => key x = k) val
    simp only [List.map_cons, List.sum_cons]
    have hcong : ∀ k2 ∈ u2,
        ((l.filter (fun x => key x = k2)).map val).sum
          = (((l.filter (fun x => !(decide (key x = k)))).filter
              (fun x => key x = k2)).map val).sum := by
      intro k2 hk2
      have hne : k2 ≠ k := by
        rintro rfl
        exact (List.nodup_cons.mp hnd).1 hk2
      rw [List.filter_filter]
      congr 1
      congr 1
      apply List.filter_congr
      intro x hx
      by_cases hkx : key x = k2
      · have hnk : ¬ (key x = k) := by
          rw [hkx]
          exact hne
        simp [hkx, hnk]
        exact hne
      · simp [hkx]
    have hmapeq : u2.map (fun k2 => ((l.filter (fun x => key x = k2)).map val).sum)
        = u2.map (fun k2 =>
            (((l.filter (fun x => !(decide (key x = k)))).filter
              (fun x => key x = k2)).map val).sum) :=
      List.map_congr_left hcong
    have hcov2 : ∀ x ∈ l.filter (fun x => !(decide (key x = k))), key x ∈ u2 := by
      intro x hx
      rcases List.mem_filter.mp hx with ⟨hxl, hnk⟩
      rcases List.mem_cons.mp (hcov x hxl) with hh | hh
      · simp [hh] at hnk
      · exact hh
    rw [hmapeq, ih (l.filter (fun x => !(decide (key x = k))))
      (List.nodup_cons.mp hnd).2 hcov2]
    linarith [hpart]

end GroupSum

/-! ## Claim theorems -/

open FinanceAnalyzer

/-- Claim C1 (corrected).  With fewer than 2 expense records (0 or 1),
`FinanceAnalyzer.predict_spending` does NOT raise an `InsufficientData`
error: it returns the default zero-valued dictionary
`{prediction: 0, daily_rate: 0, r_squared: 0, days_ahead}` for every
`days_ahead`.  No such exception exists anywhere in the source; this
theorem shows the zero default is returned for every transaction list
with fewer than 2 expenses. -/
theorem claim_C1 (txs : List Transaction) (d : ℤ)
    (h : (expensesOf txs).length < 2) :
    predict_spending txs d = ⟨0, 0, 0, d⟩ := by
  unfold predict_spending
  rw [if_pos h]

/-- Witness for C1 at the empty transaction list and the default horizon
30. -/
theorem claim_C1_witness :
    (expensesOf ([] : List Transaction)).length < 2 ∧
      predict_spending ([] : List Transaction) 30 = ⟨0, 0, 0, 30⟩ :=
  ⟨by decide, claim_C1 [] 30 (by decide)⟩

/-- Counterexample to C1 as stated: on a 1-expense list the forecast
returns exactly the default zero-valued result (prediction 0, daily_rate
0, r_squared 0) — the outcome the claim asserts cannot happen in place of
an `InsufficientData` failure. -/
theorem claim_C1_counterexample :
    predict_spending
        [⟨TKind.expense, 50, "Food", ⟨2024, 1, 1⟩⟩] 30
      = ⟨0, 0, 0, 30⟩ := by
  decide

/-- Claim C5 (confirmed).  For expenses `[10, 20, 30, 40, 50]` on five
consecutive days (day offsets 0..4), the OLS fit of
`FinanceAnalyzer.predict_spending` has slope 10 and intercept 10, and the
forecast one day past the last offset is `10 * 5 + 10 = 60`. -/
theorem claim_C5 :
    olsSlope (predPoints
        [⟨TKind.expense, 10, "Food", ⟨2024, 1, 1⟩⟩,
         ⟨TKind.expense, 20, "Food", ⟨2024, 1, 2⟩⟩,
         ⟨TKind.expense, 30, "Food", ⟨2024, 1, 3⟩⟩,
         ⟨TKind.expense, 40, "Food", ⟨2024, 1, 4⟩⟩,
         ⟨TKind.expense, 50, "Food", ⟨2024, 1, 5⟩⟩]) = 10 ∧
    olsIntercept (predPoints
        [⟨TKind.expense, 10, "Food", ⟨2024, 1, 1⟩⟩,
         ⟨TKind.expense, 20, "Food", ⟨2024, 1, 2⟩⟩,
         ⟨TKind.expense, 30, "Food", ⟨2024, 1, 3⟩⟩,
         ⟨TKind.expense, 40, "Food", ⟨2024, 1, 4⟩⟩,
         ⟨TKind.expense, 50, "Food", ⟨2024, 1, 5⟩⟩]) = 10 ∧
    (predict_spending
        [⟨TKind.expense, 10, "Food", ⟨2024, 1, 1⟩⟩,
         ⟨TKind.expense, 20, "Food", ⟨2024, 1, 2⟩⟩,
         ⟨TKind.expense, 30, "Food", ⟨2024, 1, 3⟩⟩,
         ⟨TKind.expense, 40, "Food", ⟨2024, 1, 4⟩⟩,
         ⟨TKind.expense, 50, "Food", ⟨2024, 1, 5⟩⟩] 1).prediction = 60 := by
  refine ⟨by decide, by decide, by decide⟩

/-- Claim C3 (corrected).  For every non-empty amount list, the `mode`
field of `FinanceAnalyzer.calculate_statistics` is (the 2-decimal
rounding of) an element of the list of maximal multiplicity — namely the
FIRST such value in order of first occurrence, every earlier-occurring
distinct value having strictly smaller multiplicity.  It is not in
general the smallest tied value. -/
theorem claim_C3 (xs : List ℚ) (h : xs ≠ []) :
    (calculate_statistics xs).mode = round2 (firstMode xs) ∧
    firstMode xs ∈ xs ∧
    (∀ y ∈ xs, xs.count y ≤ xs.count (firstMode xs)) ∧
    (∃ l1 l2, uniqFirst xs = l1 ++ firstMode xs :: l2 ∧
      ∀ y ∈ l1, xs.count y < xs.count (firstMode xs)) := by
  obtain ⟨hmem, hmax, hfirst⟩ := firstMode_spec xs h
  refine ⟨?_, hmem, hmax, hfirst⟩
  have hemp : xs.isEmpty = false := by
    cases xs with
    | nil => exact absurd rfl h
    | cons a t => rfl
  unfold calculate_statistics
  rw [hemp]
  rfl

/-- Witness for C3 at the list `[10, 10, 20, 20]` of the spec example:
the mode is 10 (which here is also the smaller tied value). -/
theorem claim_C3_witness :
    ([(10:ℚ), 10, 20, 20] ≠ []) ∧
      ((calculate_statistics [(10:ℚ), 10, 20, 20]).mode
          = round2 (firstMode [(10:ℚ), 10, 20, 20]) ∧
        firstMode [(10:ℚ), 10, 20, 20] ∈ [(10:ℚ), 10, 20, 20] ∧
        (∀ y ∈ [(10:ℚ), 10, 20, 20],
          List.count y [(10:ℚ), 10, 20, 20]
            ≤ List.count (firstMode [(10:ℚ), 10, 20, 20]) [(10:ℚ), 10, 20, 20]) ∧
        (∃ l1 l2, uniqFirst [(10:ℚ), 10, 20, 20]
            = l1 ++ firstMode [(10:ℚ), 10, 20, 20] :: l2 ∧
          ∀ y ∈ l1, List.count y [(10:ℚ), 10, 20, 20]
            < List.count (firstMode [(10:ℚ), 10, 20, 20]) [(10:ℚ), 10, 20, 20])) :=
  ⟨by decide, claim_C3 [(10:ℚ), 10, 20, 20] (by decide)⟩

/-- Claim C2 (corrected).  For every transaction list with at least 2
expense records and every horizon, the prediction of
`FinanceAnalyzer.predict_spending` is the rounded value of
`slope × (last day-offset + days_ahead) + intercept` for the
least-squares-optimal `(slope, intercept)` — with NO clamping at 0 (the
counterexample shows a negative prediction).  The clamp to a minimum of 0
exists only in `run_prediction` of `dashboard/app.py`, whose prediction
is indeed never negative (final conjunct). -/
theorem claim_C2 (txs : List Transaction) (d : ℤ)
    (h : 2 ≤ (expensesOf txs).length) :
    (predict_spending txs d).prediction
        = round2 (olsSlope (predPoints txs) * (lastX (predPoints txs) + (d : ℚ))
            + olsIntercept (predPoints txs)) ∧
    (∀ a c, ssRes (predPoints txs) ≤ ssResAt (predPoints txs) a c) ∧
    (∀ recent r t, run_prediction recent = some (r, t) → 0 ≤ r) := by
  refine ⟨?_, fun a c => ols_optimal (predPoints txs) a c, ?_⟩
  · unfold predict_spending
    rw [if_neg (by omega)]
  · intro recent r t hr
    unfold run_prediction at hr
    split_ifs at hr
    obtain ⟨hr1, _⟩ : max 0 (olsSlope (dashPoints recent) * (recent.length : ℚ)
        + olsIntercept (dashPoints recent)) = r ∧ _ := by
      injection hr with h2
      injection h2 with h3 h4
      exact ⟨h3, h4⟩
    rw [← hr1]
    exact le_max_left 0 _

/-- Witness for C2 at the concrete increasing series of claim C5. -/
theorem claim_C2_witness :
    2 ≤ (expensesOf
        [⟨TKind.expense, 10, "Food", ⟨2024, 1, 1⟩⟩,
         ⟨TKind.expense, 20, "Food", ⟨2024, 1, 2⟩⟩]).length ∧
      ((predict_spending
          [⟨TKind.expense, 10, "Food", ⟨2024, 1, 1⟩⟩,
           ⟨TKind.expense, 20, "Food", ⟨2024, 1, 2⟩⟩] 1).prediction
          = round2 (olsSlope (predPoints
              [⟨TKind.expense, 10, "Food", ⟨2024, 1, 1⟩⟩,
               ⟨TKind.expense, 20, "Food", ⟨2024, 1, 2⟩⟩])
              * (lastX (predPoints
                  [⟨TKind.expense, 10, "Food", ⟨2024, 1, 1⟩⟩,
                   ⟨TKind.expense, 20, "Food", ⟨2024, 1, 2⟩⟩]) + ((1 : ℤ) : ℚ))
              + olsIntercept (predPoints
                  [⟨TKind.expense, 10, "Food", ⟨2024, 1, 1⟩⟩,
                   ⟨TKind.expense, 20, "Food", ⟨2024, 1, 2⟩⟩])) ∧
        (∀ a c, ssRes (predPoints
            [⟨TKind.expense, 10, "Food", ⟨2024, 1, 1⟩⟩,
             ⟨TKind.expense, 20, "Food", ⟨2024, 1, 2⟩⟩])
          ≤ ssResAt (predPoints
              [⟨TKind.expense, 10, "Food", ⟨2024, 1, 1⟩⟩,
               ⟨TKind.expense, 20, "Food", ⟨2024, 1, 2⟩⟩]) a c) ∧
        (∀ recent r t, run_prediction recent = some (r, t) → 0 ≤ r)) :=
  ⟨by decide,
    claim_C2
      [⟨TKind.expense, 10, "Food", ⟨2024, 1, 1⟩⟩,
       ⟨TKind.expense, 20, "Food", ⟨2024, 1, 2⟩⟩] 1 (by decide)⟩

/-- Counterexample to C2 as stated: expenses 50 then 10 on consecutive
days give slope −40 and intercept 50, and the forecast one day ahead is
−40 × 2 + 50 = −30 — a NEGATIVE prediction, so no clamping to 0 happens
in `predict_spending`. -/
theorem claim_C2_counterexample :
    (predict_spending
        [⟨TKind.expense, 50, "Food", ⟨2024, 1, 1⟩⟩,
         ⟨TKind.expense, 10, "Food", ⟨2024, 1, 2⟩⟩] 1).prediction = -30 ∧
    (predict_spending
        [⟨TKind.expense, 50, "Food", ⟨2024, 1, 1⟩⟩,
         ⟨TKind.expense, 10, "Food", ⟨2024, 1, 2⟩⟩] 1).prediction < 0 := by
  refine ⟨by decide, by decide⟩

/-- Claim C4 (corrected).  For every expense series of at least 2 records
all of the same magnitude `v`, `FinanceAnalyzer.predict_spending` returns
`daily_rate = 0`, prediction `round2 v` (`= v` at the example magnitude
50), and the consuming trend classification is the stable/flat branch.
However `r_squared` is 1, not 0: the primary (`sklearn`) path scores the
degenerate zero-variance fit as a perfect fit.  The value 0 is produced
only on the `scipy.stats.linregress` fallback path (final conjunct),
taken when `sklearn` is not installed. -/
theorem claim_C4 (txs : List Transaction) (v : ℚ) (d : ℤ)
    (hlen : 2 ≤ (expensesOf txs).length)
    (hconst : ∀ t ∈ expensesOf txs, t.amount = v) :
    (predict_spending txs d).daily_rate = 0 ∧
    (predict_spending txs d).prediction = round2 v ∧
    trendOf (predict_spending txs d).daily_rate = TrendLabel.stable ∧
    (predict_spending txs d).r_squared = 1 ∧
    (∀ r, predict_spending_fallback txs d = some r → r.r_squared = 0) := by
  have hne : predPoints txs ≠ [] := predPoints_ne_nil txs hlen
  have hsnd : ∀ p ∈ predPoints txs, p.2 = v := predPoints_snd_const txs v hconst
  have hslope : olsSlope (predPoints txs) = 0 := olsSlope_const _ v hsnd
  have hicept : olsIntercept (predPoints txs) = v := olsIntercept_const _ v hne hsnd
  have hrate : (predict_spending txs d).daily_rate = 0 := by
    unfold predict_spending
    rw [if_neg (by omega)]
    show round2 (olsSlope (predPoints txs)) = 0
    rw [hslope]
    decide
  refine ⟨hrate, ?_, ?_, ?_, ?_⟩
  · unfold predict_spending
    rw [if_neg (by omega)]
    show round2 (olsSlope (predPoints txs) * (lastX (predPoints txs) + (d:ℚ))
        + olsIntercept (predPoints txs)) = round2 v
    rw [hslope, hicept]
    norm_num
  · rw [hrate]
    decide
  · unfold predict_spending
    rw [if_neg (by omega)]
    show round3 (r2score (predPoints txs)) = 1
    rw [r2score_const _ v hne hsnd]
    decide
  · intro r hr
    unfold predict_spending_fallback at hr
    rw [if_neg (by omega)] at hr
    split_ifs at hr with hsxx htot
    · have h2 := Option.some.inj hr
      rw [← h2]
      show round3 (0:ℚ) = 0
      decide
    · exact absurd (ssTot_const _ v hne hsnd) htot

/-- Witness for C4 at the spec example: five expense records of magnitude
50 on consecutive days, horizon 30. -/
theorem claim_C4_witness :
    2 ≤ (expensesOf
        [⟨TKind.expense, 50, "Food", ⟨2024, 1, 1⟩⟩,
         ⟨TKind.expense, 50, "Food", ⟨2024, 1, 2⟩⟩,
         ⟨TKind.expense, 50, "Food", ⟨2024, 1, 3⟩⟩,
         ⟨TKind.expense, 50, "Food", ⟨2024, 1, 4⟩⟩,
         ⟨TKind.expense, 50, "Food", ⟨2024, 1, 5⟩⟩]).length ∧
    (∀ t ∈ expensesOf
        [⟨TKind.expense, 50, "Food", ⟨2024, 1, 1⟩⟩,
         ⟨TKind.expense, 50, "Food", ⟨2024, 1, 2⟩⟩,
         ⟨TKind.expense, 50, "Food", ⟨2024, 1, 3⟩⟩,
         ⟨TKind.expense, 50, "Food", ⟨2024, 1, 4⟩⟩,
         ⟨TKind.expense, 50, "Food", ⟨2024, 1, 5⟩⟩], t.amount = 50) ∧
    ((predict_spending
        [⟨TKind.expense, 50, "Food", ⟨2024, 1, 1⟩⟩,
         ⟨TKind.expense, 50, "Food", ⟨2024, 1, 2⟩⟩,
         ⟨TKind.expense, 50, "Food", ⟨2024, 1, 3⟩⟩,
         ⟨TKind.expense, 50, "Food", ⟨2024, 1, 4⟩⟩,
         ⟨TKind.expense, 50, "Food", ⟨2024, 1, 5⟩⟩] 30).daily_rate = 0 ∧
      (predict_spending
        [⟨TKind.expense, 50, "Food", ⟨2024, 1, 1⟩⟩,
         ⟨TKind.expense, 50, "Food", ⟨2024, 1, 2⟩⟩,
         ⟨TKind.expense, 50, "Food", ⟨2024, 1, 3⟩⟩,
         ⟨TKind.expense, 50, "Food", ⟨2024, 1, 4⟩⟩,
         ⟨TKind.expense, 50, "Food", ⟨2024, 1, 5⟩⟩] 30).prediction = round2 (50:ℚ) ∧
      trendOf (predict_spending
        [⟨TKind.expense, 50, "Food", ⟨2024, 1, 1⟩⟩,
         ⟨TKind.expense, 50, "Food", ⟨2024, 1, 2⟩⟩,
         ⟨TKind.expense, 50, "Food", ⟨2024, 1, 3⟩⟩,
         ⟨TKind.expense, 50, "Food", ⟨2024, 1, 4⟩⟩,
         ⟨TKind.expense, 50, "Food", ⟨2024, 1, 5⟩⟩] 30).daily_rate
        = TrendLabel.stable ∧
      (predict_spending
        [⟨TKind.expense, 50, "Food", ⟨2024, 1, 1⟩⟩,
         ⟨TKind.expense, 50, "Food", ⟨2024, 1, 2⟩⟩,
         ⟨TKind.expense, 50, "Food", ⟨2024, 1, 3⟩⟩,
         ⟨TKind.expense, 50, "Food", ⟨2024, 1, 4⟩⟩,
         ⟨TKind.expense, 50, "Food", ⟨2024, 1, 5⟩⟩] 30).r_squared = 1 ∧
      (∀ r, predict_spending_fallback
        [⟨TKind.expense, 50, "Food", ⟨2024, 1, 1⟩⟩,
         ⟨TKind.expense, 50, "Food", ⟨2024, 1, 2⟩⟩,
         ⟨TKind.expense, 50, "Food", ⟨2024, 1, 3⟩⟩,
         ⟨TKind.expense, 50, "Food", ⟨2024, 1, 4⟩⟩,
         ⟨TKind.expense, 50, "Food", ⟨2024, 1, 5⟩⟩] 30 = some r
          → r.r_squared = 0)) :=
  ⟨by decide, by decide,
    claim_C4
      [⟨TKind.expense, 50, "Food", ⟨2024, 1, 1⟩⟩,
       ⟨TKind.expense, 50, "Food", ⟨2024, 1, 2⟩⟩,
       ⟨TKind.expense, 50, "Food", ⟨2024, 1, 3⟩⟩,
       ⟨TKind.expense, 50, "Food", ⟨2024, 1, 4⟩⟩,
       ⟨TKind.expense, 50, "Food", ⟨2024, 1, 5⟩⟩] 50 30 (by decide) (by decide)⟩

/-- Counterexample to C4 as stated: on the constant series of five
records of magnitude 50 the returned `r_squared` is 1, not the claimed
convention value 0 (the degenerate fit is scored as perfect on the
primary path). -/
theorem claim_C4_counterexample :
    (predict_spending
        [⟨TKind.expense, 50, "Food", ⟨2024, 1, 1⟩⟩,
         ⟨TKind.expense, 50, "Food", ⟨2024, 1, 2⟩⟩,
         ⟨TKind.expense, 50, "Food", ⟨2024, 1, 3⟩⟩,
         ⟨TKind.expense, 50, "Food", ⟨2024, 1, 4⟩⟩,
         ⟨TKind.expense, 50, "Food", ⟨2024, 1, 5⟩⟩] 30).r_squared = 1 ∧
    (predict_spending
        [⟨TKind.expense, 50, "Food", ⟨2024, 1, 1⟩⟩,
         ⟨TKind.expense, 50, "Food", ⟨2024, 1, 2⟩⟩,
         ⟨TKind.expense, 50, "Food", ⟨2024, 1, 3⟩⟩,
         ⟨TKind.expense, 50, "Food", ⟨2024, 1, 4⟩⟩,
         ⟨TKind.expense, 50, "Food", ⟨2024, 1, 5⟩⟩] 30).r_squared ≠ 0 := by
  refine ⟨by decide, by decide⟩

/-- Counterexample to C3 as stated: on `[20, 20, 10, 10]` both values are
tied at multiplicity 2, the smallest tied value is 10, yet the mode
returned is 20 (the first-encountered tied value). -/
theorem claim_C3_counterexample :
    (calculate_statistics [(20:ℚ), 20, 10, 10]).mode = 20 ∧
      (calculate_statistics [(20:ℚ), 20, 10, 10]).mode ≠ 10 ∧
      List.count (10:ℚ) [(20:ℚ), 20, 10, 10]
        = List.count (20:ℚ) [(20:ℚ), 20, 10, 10] ∧
      (10:ℚ) < 20 := by
  refine ⟨?_, ?_, by decide, by decide⟩
  · show round2 (firstMode [(20:ℚ), 20, 10, 10]) = 20
    decide
  · show round2 (firstMode [(20:ℚ), 20, 10, 10]) ≠ 10
    decide

/-- Claim C6 (corrected).  The top-N category truncation (the
`nlargest` pipeline of `_plot_category_trends`; the source instantiates
N = 4) returns the first `n` buckets of the full list sorted by
expense total descending and SILENTLY DROPS the remainder: no "Other"
bucket is appended, and the sum of the returned buckets falls short of
the total expense by exactly the sum of the dropped buckets (so the
total is conserved only together with the dropped part). -/
theorem claim_C6 (txs : List Transaction) (n : ℕ) :
    AnalyticsView.top_categories txs n = (AnalyticsView.sortedCatBuckets txs).take n ∧
    (AnalyticsView.sortedCatBuckets txs).Pairwise (fun a b => b.2 ≤ a.2) ∧
    ((AnalyticsView.sortedCatBuckets txs).map Prod.snd).sum = totalExpense txs ∧
    ((AnalyticsView.top_categories txs n).map Prod.snd).sum
        + (((AnalyticsView.sortedCatBuckets txs).drop n).map Prod.snd).sum
      = totalExpense txs := by
  have hsum : ((AnalyticsView.sortedCatBuckets txs).map Prod.snd).sum
      = totalExpense txs := by
    unfold AnalyticsView.sortedCatBuckets
    have hperm1 := List.perm_insertionSort (fun a b : String × ℚ => b.2 ≤ a.2)
      (((uniqFirst ((expensesOf txs).map Transaction.category)).insertionSort
          (fun a b => strLe a b = true)).map
        (fun c => (c, categoryExpenseTotal txs c)))
    rw [(hperm1.map Prod.snd).sum_eq, List.map_map]
    have hperm2 := List.perm_insertionSort (fun a b : String => strLe a b = true)
      (uniqFirst ((expensesOf txs).map Transaction.category))
    rw [(hperm2.map (Prod.snd ∘ fun c => (c, categoryExpenseTotal txs c))).sum_eq]
    show ((uniqFirst ((expensesOf txs).map Transaction.category)).map
        (fun c => categoryExpenseTotal txs c)).sum = totalExpense txs
    exact sum_group Transaction.category Transaction.amount
      (uniqFirst ((expensesOf txs).map Transaction.category))
      (expensesOf txs)
      (nodup_uniqFirst _)
      (fun x hx => mem_uniqFirst.mpr (List.mem_map_of_mem _ hx))
  refine ⟨rfl, ?_, hsum, ?_⟩
  · haveI h1 : IsTotal (String × ℚ) (fun a b => b.2 ≤ a.2) :=
      ⟨fun a b => le_total b.2 a.2⟩
    haveI h2 : IsTrans (String × ℚ) (fun a b => b.2 ≤ a.2) :=
      ⟨fun a b c hab hbc => le_trans hbc hab⟩
    exact List.sorted_insertionSort _ _
  · have hsplit := List.take_append_drop n (AnalyticsView.sortedCatBuckets txs)
    calc ((AnalyticsView.top_categories txs n).map Prod.snd).sum
        + (((AnalyticsView.sortedCatBuckets txs).drop n).map Prod.snd).sum
        = ((((AnalyticsView.sortedCatBuckets txs).take n
            ++ (AnalyticsView.sortedCatBuckets txs).drop n)).map Prod.snd).sum := by
          rw [List.map_append, List.sum_append]
          rfl
      _ = ((AnalyticsView.sortedCatBuckets txs).map Prod.snd).sum := by rw [hsplit]
      _ = totalExpense txs := hsum

/-- Counterexample to C6 as stated: on the spec example
`{Food: 100, Rent: 300, Transport: 50, Shopping: 20}` with `top_n = 2`
the truncation yields `[Rent: 300, Food: 100]` with NO `Other: 70`
bucket, and the summed expense total of the returned buckets (400) does
not equal the total expense over all categories (470). -/
theorem claim_C6_counterexample :
    AnalyticsView.top_categories
        [⟨TKind.expense, 100, "Food", ⟨2024, 1, 1⟩⟩,
         ⟨TKind.expense, 300, "Rent", ⟨2024, 1, 2⟩⟩,
         ⟨TKind.expense, 50, "Transport", ⟨2024, 1, 3⟩⟩,
         ⟨TKind.expense, 20, "Shopping", ⟨2024, 1, 4⟩⟩] 2
      = [("Rent", 300), ("Food", 100)] ∧
    ((AnalyticsView.top_categories
        [⟨TKind.expense, 100, "Food", ⟨2024, 1, 1⟩⟩,
         ⟨TKind.expense, 300, "Rent", ⟨2024, 1, 2⟩⟩,
         ⟨TKind.expense, 50, "Transport", ⟨2024, 1, 3⟩⟩,
         ⟨TKind.expense, 20, "Shopping", ⟨2024, 1, 4⟩⟩] 2).map Prod.snd).sum = 400 ∧
    totalExpense
        [⟨TKind.expense, 100, "Food", ⟨2024, 1, 1⟩⟩,
         ⟨TKind.expense, 300, "Rent", ⟨2024, 1, 2⟩⟩,
         ⟨TKind.expense, 50, "Transport", ⟨2024, 1, 3⟩⟩,
         ⟨TKind.expense, 20, "Shopping", ⟨2024, 1, 4⟩⟩] = 470 ∧
    ((AnalyticsView.top_categories
        [⟨TKind.expense, 100, "Food", ⟨2024, 1, 1⟩⟩,
         ⟨TKind.expense, 300, "Rent", ⟨2024, 1, 2⟩⟩,
         ⟨TKind.expense, 50, "Transport", ⟨2024, 1, 3⟩⟩,
         ⟨TKind.expense, 20, "Shopping", ⟨2024, 1, 4⟩⟩] 2).map Prod.snd).sum
      ≠ totalExpense
        [⟨TKind.expense, 100, "Food", ⟨2024, 1, 1⟩⟩,
         ⟨TKind.expense, 300, "Rent", ⟨2024, 1, 2⟩⟩,
         ⟨TKind.expense, 50, "Transport", ⟨2024, 1, 3⟩⟩,
         ⟨TKind.expense, 20, "Shopping", ⟨2024, 1, 4⟩⟩] := by
  refine ⟨by decide, by decide, by decide, by decide⟩

/-- Claim C7 (confirmed).  `FinanceAnalyzer.monthly_trend` returns
exactly the months in which any transaction (income or expense) occurs —
no period present in the data is dropped — each month exactly once,
sorted chronologically ascending, with the income and expense totals of
each listed month reported positionally (a month with no income, or no
expense, carries the sum over an empty filter, i.e. 0, on that side). -/
theorem claim_C7 (txs : List Transaction) :
    (monthly_trend txs).1.Pairwise (fun a b => monthLe a b = true) ∧
    (monthly_trend txs).1.Nodup ∧
    (∀ m, m ∈ (monthly_trend txs).1 ↔ ∃ t ∈ txs, monthKey t.date = m) ∧
    (monthly_trend txs).2.1 = (monthly_trend txs).1.map (incomeInMonth txs) ∧
    (monthly_trend txs).2.2 = (monthly_trend txs).1.map (expenseInMonth txs) := by
  refine ⟨?_, ?_, ?_, rfl, rfl⟩
  · haveI h1 : IsTotal (ℤ × ℤ) (fun a b => monthLe a b = true) := by
      constructor
      intro a b
      simp only [monthLe, decide_eq_true_eq]
      omega
    haveI h2 : IsTrans (ℤ × ℤ) (fun a b => monthLe a b = true) := by
      constructor
      intro a b c hab hbc
      simp only [monthLe, decide_eq_true_eq] at hab hbc ⊢
      omega
    exact List.sorted_insertionSort _ _
  · exact ((List.perm_insertionSort _ _).nodup_iff).mpr (nodup_uniqFirst _)
  · intro m
    show m ∈ monthsOf txs ↔ _
    unfold monthsOf
    rw [List.mem_insertionSort, mem_uniqFirst, List.mem_map]

/-- Claim C8 (code bug in the source).  On the empty amount list the
statistics never fail: `calculate_statistics` returns every field as
zero, and `numpy_operations` returns `sum = 0`, `mean = 0` and
`percentile_75 = 0` — but its empty-input dictionary OMITS the key
`percentile_25` (embedded as the `none` field below), although the
non-empty branch always defines it; the claim "every percentile field is
defined as zero" is the evident intent, and the asymmetric empty-case
dictionary is the slip. -/
theorem claim_C8 :
    calculate_statistics ([] : List ℚ) = ⟨0, 0, 0, 0, 0, 0⟩ ∧
    numpy_operations ([] : List ℚ)
      = { sum := 0, mean := 0, percentile_25 := none,
          percentile_75 := 0, cumulative_sum := none } ∧
    (numpy_operations ([] : List ℚ)).percentile_25 = none ∧
    (numpy_operations ([] : List ℚ)).percentile_25 ≠ some 0 ∧
    (numpy_operations ([] : List ℚ)).percentile_75 = 0 := by
  refine ⟨rfl, by decide, by decide, by decide, by decide⟩

/-- Unfolding lemma: the statistics dictionary on a non-empty list. -/
theorem calculate_statistics_of_ne_nil (xs : List ℚ) (h : xs ≠ []) :
    calculate_statistics xs =
      { mean := round2 (meanQ xs), median := round2 (medianQ xs),
        mode := round2 (firstMode xs),
        std_dev := round2 (Real.sqrt ((varS xs : ℚ) : ℝ)),
        min := round2 (minQ xs), max := round2 (maxQ xs) } := by
  have hemp : xs.isEmpty = false := by
    cases xs with
    | nil => exact absurd rfl h
    | cons a t => rfl
  unfold calculate_statistics
  rw [if_neg (by simp [hemp])]

/-- Unfolding lemma: the forecast dictionary with at least 2 expenses. -/
theorem predict_spending_of_two_le (txs : List Transaction) (d : ℤ)
    (h : 2 ≤ (expensesOf txs).length) :
    predict_spending txs d =
      { prediction := round2 (olsSlope (predPoints txs)
          * (lastX (predPoints txs) + (d : ℚ)) + olsIntercept (predPoints txs))
        daily_rate := round2 (olsSlope (predPoints txs))
        r_squared := round3 (r2score (predPoints txs))
        days_ahead := d } := by
  unfold predict_spending
  rw [if_neg (by omega)]

/-- Claim C9 (confirmed).  For every non-empty amount list the statistics
returned by `FinanceAnalyzer.calculate_statistics` satisfy
`min ≤ mean ≤ max` and `min ≤ median ≤ max` (the rounding applied to each
field is monotone, so the exact-value inequalities carry over). -/
theorem claim_C9 (xs : List ℚ) (h : xs ≠ []) :
    (calculate_statistics xs).min ≤ (calculate_statistics xs).mean ∧
    (calculate_statistics xs).mean ≤ (calculate_statistics xs).max ∧
    (calculate_statistics xs).min ≤ (calculate_statistics xs).median ∧
    (calculate_statistics xs).median ≤ (calculate_statistics xs).max := by
  rw [calculate_statistics_of_ne_nil xs h]
  obtain ⟨hm1, hm2⟩ := medianQ_bounds xs h
  exact ⟨round2_mono (minQ_le_meanQ xs h), round2_mono (meanQ_le_maxQ xs h),
    round2_mono hm1, round2_mono hm2⟩

/-- Witness for C9 at the list `[3, 1, 2]`. -/
theorem claim_C9_witness :
    ([(3:ℚ), 1, 2] ≠ []) ∧
      ((calculate_statistics [(3:ℚ), 1, 2]).min
          ≤ (calculate_statistics [(3:ℚ), 1, 2]).mean ∧
        (calculate_statistics [(3:ℚ), 1, 2]).mean
          ≤ (calculate_statistics [(3:ℚ), 1, 2]).max ∧
        (calculate_statistics [(3:ℚ), 1, 2]).min
          ≤ (calculate_statistics [(3:ℚ), 1, 2]).median ∧
        (calculate_statistics [(3:ℚ), 1, 2]).median
          ≤ (calculate_statistics [(3:ℚ), 1, 2]).max) :=
  ⟨by decide, claim_C9 [(3:ℚ), 1, 2] (by decide)⟩

/-- Claim C10 (confirmed).  Every numeric field of the public results is
a rounding of the exact value: on non-empty input,
`calculate_statistics` returns mean, median, mode, standard deviation,
min and max rounded to 2 decimal places (half-to-even), and with at
least 2 expenses `predict_spending` returns prediction and daily_rate
rounded to 2 decimal places and r_squared rounded to 3, so each returned
field differs from the corresponding exact value by at most half of the
rounding unit (1/200, resp. 1/2000). -/
theorem claim_C10 (amounts : List ℚ) (txs : List Transaction) (d : ℤ)
    (hne : amounts ≠ []) (hexp : 2 ≤ (expensesOf txs).length) :
    ((calculate_statistics amounts).mean = round2 (meanQ amounts) ∧
      |(calculate_statistics amounts).mean - meanQ amounts| ≤ 1/200) ∧
    ((calculate_statistics amounts).median = round2 (medianQ amounts) ∧
      |(calculate_statistics amounts).median - medianQ amounts| ≤ 1/200) ∧
    ((calculate_statistics amounts).mode = round2 (firstMode amounts) ∧
      |(calculate_statistics amounts).mode - firstMode amounts| ≤ 1/200) ∧
    ((calculate_statistics amounts).std_dev
        = round2 (Real.sqrt ((varS amounts : ℚ) : ℝ)) ∧
      |(calculate_statistics amounts).std_dev
        - Real.sqrt ((varS amounts : ℚ) : ℝ)| ≤ 1/200) ∧
    ((calculate_statistics amounts).min = round2 (minQ amounts) ∧
      |(calculate_statistics amounts).min - minQ amounts| ≤ 1/200) ∧
    ((calculate_statistics amounts).max = round2 (maxQ amounts) ∧
      |(calculate_statistics amounts).max - maxQ amounts| ≤ 1/200) ∧
    ((predict_spending txs d).prediction
        = round2 (olsSlope (predPoints txs)
            * (lastX (predPoints txs) + (d : ℚ)) + olsIntercept (predPoints txs)) ∧
      |(predict_spending txs d).prediction
        - (olsSlope (predPoints txs)
            * (lastX (predPoints txs) + (d : ℚ)) + olsIntercept (predPoints txs))|
        ≤ 1/200) ∧
    ((predict_spending txs d).daily_rate = round2 (olsSlope (predPoints txs)) ∧
      |(predict_spending txs d).daily_rate - olsSlope (predPoints txs)| ≤ 1/200) ∧
    ((predict_spending txs d).r_squared = round3 (r2score (predPoints txs)) ∧
      |(predict_spending txs d).r_squared - r2score (predPoints txs)| ≤ 1/2000) := by
  rw [calculate_statistics_of_ne_nil amounts hne, predict_spending_of_two_le txs d hexp]
  exact ⟨⟨rfl, round2_abs_le _⟩, ⟨rfl, round2_abs_le _⟩, ⟨rfl, round2_abs_le _⟩,
    ⟨rfl, round2_abs_le _⟩, ⟨rfl, round2_abs_le _⟩, ⟨rfl, round2_abs_le _⟩,
    ⟨rfl, round2_abs_le _⟩, ⟨rfl, round2_abs_le _⟩, ⟨rfl, round3_abs_le _⟩⟩

/-- Witness for C10 at the list `[1]` and a 2-expense series. -/
theorem claim_C10_witness :
    ([(1:ℚ)] ≠ []) ∧
    2 ≤ (expensesOf
        [⟨TKind.expense, 10, "Food", ⟨2024, 1, 1⟩⟩,
         ⟨TKind.expense, 20, "Food", ⟨2024, 1, 2⟩⟩]).length ∧
    (((calculate_statistics [(1:ℚ)]).mean = round2 (meanQ [(1:ℚ)]) ∧
      |(calculate_statistics [(1:ℚ)]).mean - meanQ [(1:ℚ)]| ≤ 1/200) ∧
    ((calculate_statistics [(1:ℚ)]).median = round2 (medianQ [(1:ℚ)]) ∧
      |(calculate_statistics [(1:ℚ)]).median - medianQ [(1:ℚ)]| ≤ 1/200) ∧
    ((calculate_statistics [(1:ℚ)]).mode = round2 (firstMode [(1:ℚ)]) ∧
      |(calculate_statistics [(1:ℚ)]).mode - firstMode [(1:ℚ)]| ≤ 1/200) ∧
    ((calculate_statistics [(1:ℚ)]).std_dev
        = round2 (Real.sqrt ((varS [(1:ℚ)] : ℚ) : ℝ)) ∧
      |(calculate_statistics [(1:ℚ)]).std_dev
        - Real.sqrt ((varS [(1:ℚ)] : ℚ) : ℝ)| ≤ 1/200) ∧
    ((calculate_statistics [(1:ℚ)]).min = round2 (minQ [(1:ℚ)]) ∧
      |(calculate_statistics [(1:ℚ)]).min - minQ [(1:ℚ)]| ≤ 1/200) ∧
    ((calculate_statistics [(1:ℚ)]).max = round2 (maxQ [(1:ℚ)]) ∧
      |(calculate_statistics [(1:ℚ)]).max - maxQ [(1:ℚ)]| ≤ 1/200) ∧
    ((predict_spending
        [⟨TKind.expense, 10, "Food", ⟨2024, 1, 1⟩⟩,
         ⟨TKind.expense, 20, "Food", ⟨2024, 1, 2⟩⟩] 30).prediction
        = round2 (olsSlope (predPoints
            [⟨TKind.expense, 10, "Food", ⟨2024, 1, 1⟩⟩,
             ⟨TKind.expense, 20, "Food", ⟨2024, 1, 2⟩⟩])
            * (lastX (predPoints
                [⟨TKind.expense, 10, "Food", ⟨2024, 1, 1⟩⟩,
                 ⟨TKind.expense, 20, "Food", ⟨2024, 1, 2⟩⟩]) + ((30:ℤ) : ℚ))
            + olsIntercept (predPoints
                [⟨TKind.expense, 10, "Food", ⟨2024, 1, 1⟩⟩,
                 ⟨TKind.expense, 20, "Food", ⟨2024, 1, 2⟩⟩])) ∧
      |(predict_spending
          [⟨TKind.expense, 10, "Food", ⟨2024, 1, 1⟩⟩,
           ⟨TKind.expense, 20, "Food", ⟨2024, 1, 2⟩⟩] 30).prediction
        - (olsSlope (predPoints
            [⟨TKind.expense, 10, "Food", ⟨2024, 1, 1⟩⟩,
             ⟨TKind.expense, 20, "Food", ⟨2024, 1, 2⟩⟩])
            * (lastX (predPoints
                [⟨TKind.expense, 10, "Food", ⟨2024, 1, 1⟩⟩,
                 ⟨TKind.expense, 20, "Food", ⟨2024, 1, 2⟩⟩]) + ((30:ℤ) : ℚ))
            + olsIntercept (predPoints
                [⟨TKind.expense, 10, "Food", ⟨2024, 1, 1⟩⟩,
                 ⟨TKind.expense, 20, "Food", ⟨2024, 1, 2⟩⟩]))| ≤ 1/200) ∧
    ((predict_spending
        [⟨TKind.expense, 10, "Food", ⟨2024, 1, 1⟩⟩,
         ⟨TKind.expense, 20, "Food", ⟨2024, 1, 2⟩⟩] 30).daily_rate
        = round2 (olsSlope (predPoints
            [⟨TKind.expense, 10, "Food", ⟨2024, 1, 1⟩⟩,
             ⟨TKind.expense, 20, "Food", ⟨2024, 1, 2⟩⟩])) ∧
      |(predict_spending
          [⟨TKind.expense, 10, "Food", ⟨2024, 1, 1⟩⟩,
           ⟨TKind.expense, 20, "Food", ⟨2024, 1, 2⟩⟩] 30).daily_rate
        - olsSlope (predPoints
            [⟨TKind.expense, 10, "Food", ⟨2024, 1, 1⟩⟩,
             ⟨TKind.expense, 20, "Food", ⟨2024, 1, 2⟩⟩])| ≤ 1/200) ∧
    ((predict_spending
        [⟨TKind.expense, 10, "Food", ⟨2024, 1, 1⟩⟩,
         ⟨TKind.expense, 20, "Food", ⟨2024, 1, 2⟩⟩] 30).r_squared
        = round3 (r2score (predPoints
            [⟨TKind.expense, 10, "Food", ⟨2024, 1, 1⟩⟩,
             ⟨TKind.expense, 20, "Food", ⟨2024, 1, 2⟩⟩])) ∧
      |(predict_spending
          [⟨TKind.expense, 10, "Food", ⟨2024, 1, 1⟩⟩,
           ⟨TKind.expense, 20, "Food", ⟨2024, 1, 2⟩⟩] 30).r_squared
        - r2score (predPoints
            [⟨TKind.expense, 10, "Food", ⟨2024, 1, 1⟩⟩,
             ⟨TKind.expense, 20, "Food", ⟨2024, 1, 2⟩⟩])| ≤ 1/2000)) :=
  ⟨by decide, by decide,
    claim_C10 [(1:ℚ)]
      [⟨TKind.expense, 10, "Food", ⟨2024, 1, 1⟩⟩,
       ⟨TKind.expense, 20, "Food", ⟨2024, 1, 2⟩⟩] 30 (by decide) (by decide)⟩

end FinanceTracker
